import Mathlib

/-!
Verification of the camera-framing geometry of the globe widget.

The definitions below are a shallow embedding, in exact real arithmetic, of
the geometry code of `GlobeScene.tsx` (`toRad`, `toDeg`, `wrapLng`,
`angularDistance`, `cartesianFromLatLng`, `latLngFromCartesian`,
`viewForPoints`, the scroll-zoom altitude interpolation) and of
`lib/geo.ts` (`haversineKm`).  JavaScript numbers are modelled as real
numbers; `Math.sin`, `Math.cos`, `Math.asin`, `Math.atan2`, `Math.sqrt` are
the corresponding exact real functions, and the JavaScript `%` operator is
modelled by truncated division.
-/

open Real

namespace Globe

open scoped Classical

noncomputable section

/-- A labelled geographic point: the `Point` type of `GlobeScene.tsx`. -/
structure Point where
  lat : ℝ
  lng : ℝ
  label : String

/-- An unlabelled latitude/longitude pair, the structural `{ lat, lng }`
arguments accepted by the coordinate helpers. -/
structure Coord where
  lat : ℝ
  lng : ℝ
  deriving DecidableEq

/-- Forget the label of a point (structural subtyping in the source). -/
def Point.coord (p : Point) : Coord := ⟨p.lat, p.lng⟩

/-- A Cartesian vector `{ x, y, z }`. -/
structure Vec3 where
  x : ℝ
  y : ℝ
  z : ℝ
  deriving DecidableEq

/-- `toRad` of `GlobeScene.tsx`: degrees to radians. -/
def toRad (deg : ℝ) : ℝ := deg * π / 180

/-- `toDeg` of `GlobeScene.tsx`: radians to degrees. -/
def toDeg (rad : ℝ) : ℝ := rad * 180 / π

/-- Truncation toward zero, the rounding used by the JavaScript `%`
operator on finite numbers. -/
def jsTrunc (x : ℝ) : ℤ := if 0 ≤ x then ⌊x⌋ else ⌈x⌉

/-- The JavaScript remainder `a % b` on finite reals (`b ≠ 0`):
`a - b * trunc (a / b)`. -/
def jsRem (a b : ℝ) : ℝ := a - b * jsTrunc (a / b)

/-- `wrapLng` of `GlobeScene.tsx`. -/
def wrapLng (lng : ℝ) : ℝ :=
  let wrapped := jsRem (lng + 180) 360 - 180
  if wrapped < -180 then wrapped + 360 else wrapped

/-- The haversine term `h` computed inside `angularDistance`. -/
def haversineTerm (a b : Coord) : ℝ :=
  sin ((toRad b.lat - toRad a.lat) / 2) ^ 2 +
    cos (toRad a.lat) * cos (toRad b.lat) * sin (toRad (b.lng - a.lng) / 2) ^ 2

/-- `angularDistance` of `GlobeScene.tsx`: great-circle angle in radians. -/
def angularDistance (a b : Coord) : ℝ :=
  2 * arcsin (min 1 (Real.sqrt (haversineTerm a b)))

/-- `Math.atan2 y x`, following the ECMAScript specification on finite
inputs (a real zero behaves like JavaScript `+0`). -/
def atan2 (y x : ℝ) : ℝ :=
  if 0 < x then arctan (y / x)
  else if x < 0 then
    (if 0 ≤ y then arctan (y / x) + π else arctan (y / x) - π)
  else
    (if 0 < y then π / 2 else if y < 0 then -(π / 2) else 0)

/-- `cartesianFromLatLng` of `GlobeScene.tsx`. -/
def cartesianFromLatLng (c : Coord) : Vec3 :=
  let phi := toRad c.lat
  let theta := toRad c.lng
  ⟨cos phi * cos theta, cos phi * sin theta, sin phi⟩

/-- `latLngFromCartesian` of `GlobeScene.tsx`. -/
def latLngFromCartesian (v : Vec3) : Coord :=
  let hyp := Real.sqrt (v.x * v.x + v.y * v.y)
  ⟨toDeg (atan2 v.z hyp), wrapLng (toDeg (atan2 v.y v.x))⟩

/-- `DEFAULT_POINT_OF_VIEW` of `GlobeScene.tsx`. -/
def DEFAULT_POINT_OF_VIEW : Coord := ⟨20, 0⟩

/-- `FAR_ALTITUDE` of `GlobeScene.tsx`. -/
def FAR_ALTITUDE : ℝ := 4.6

/-- `CLOSE_ALTITUDE` of `GlobeScene.tsx`. -/
def CLOSE_ALTITUDE : ℝ := 1.1

/-- The result record of `viewForPoints`: `{ lat, lng, farAltitude }`. -/
structure View where
  lat : ℝ
  lng : ℝ
  farAltitude : ℝ
  deriving DecidableEq

/-- The vector-summing reducer of `viewForPoints`. -/
def addCartesian (acc : Vec3) (point : Point) : Vec3 :=
  let c := cartesianFromLatLng point.coord
  ⟨acc.x + c.x, acc.y + c.y, acc.z + c.z⟩

/-- `viewForPoints` of `GlobeScene.tsx`. -/
def viewForPoints : List Point → View
  | [] => ⟨DEFAULT_POINT_OF_VIEW.lat, DEFAULT_POINT_OF_VIEW.lng, FAR_ALTITUDE⟩
  | [p] => ⟨p.lat, p.lng, CLOSE_ALTITUDE + 0.1⟩
  | points =>
    let sum := points.foldl addCartesian ⟨0, 0, 0⟩
    let magnitude := Real.sqrt (sum.x * sum.x + sum.y * sum.y + sum.z * sum.z)
    let center :=
      if magnitude = 0 then DEFAULT_POINT_OF_VIEW
      else latLngFromCartesian ⟨sum.x / magnitude, sum.y / magnitude, sum.z / magnitude⟩
    let maxAngularSpread :=
      points.foldl (fun mx point => max mx (angularDistance center point.coord)) 0
    let spreadFrac := min (maxAngularSpread / (π / 2)) 1
    let farAltitude :=
      CLOSE_ALTITUDE + (FAR_ALTITUDE - CLOSE_ALTITUDE) * (0.35 + 0.65 * spreadFrac)
    ⟨center.lat, center.lng, min (max farAltitude CLOSE_ALTITUDE) FAR_ALTITUDE⟩

/-- `haversineKm` of `lib/geo.ts` (Earth radius 6371 km). -/
def haversineKm (a b : Coord) : ℝ :=
  let R : ℝ := 6371
  let dLat := toRad (b.lat - a.lat)
  let dLon := toRad (b.lng - a.lng)
  let lat1 := toRad a.lat
  let lat2 := toRad b.lat
  let s := sin (dLat / 2) ^ 2 + cos lat1 * cos lat2 * sin (dLon / 2) ^ 2
  2 * R * arcsin (Real.sqrt s)

/-- The target altitude computed by the scroll-zoom effect of
`GlobeScene.tsx`:
`farAltitude - (farAltitude - closeAltitude) * clamp (zoomProgress, 0, 1)`. -/
def targetAltitude (farAltitude closeAltitude zoomProgress : ℝ) : ℝ :=
  let clampedProgress := min (max zoomProgress 0) 1
  farAltitude - (farAltitude - closeAltitude) * clampedProgress

/-- Division returning `none` on a zero denominator, used to express that
`viewForPoints` never divides by zero. -/
def safeDiv (a b : ℝ) : Option ℝ := if b = 0 then none else some (a / b)

/-- `viewForPoints` with its centroid normalization performed by `safeDiv`:
it returns `none` exactly when the source would divide by zero. -/
def viewForPointsChecked : List Point → Option View
  | [] => some ⟨DEFAULT_POINT_OF_VIEW.lat, DEFAULT_POINT_OF_VIEW.lng, FAR_ALTITUDE⟩
  | [p] => some ⟨p.lat, p.lng, CLOSE_ALTITUDE + 0.1⟩
  | points =>
    let sum := points.foldl addCartesian ⟨0, 0, 0⟩
    let magnitude := Real.sqrt (sum.x * sum.x + sum.y * sum.y + sum.z * sum.z)
    let centerOpt :=
      if magnitude = 0 then some DEFAULT_POINT_OF_VIEW
      else do
        let x ← safeDiv sum.x magnitude
        let y ← safeDiv sum.y magnitude
        let z ← safeDiv sum.z magnitude
        some (latLngFromCartesian ⟨x, y, z⟩)
    centerOpt.map fun center =>
      let maxAngularSpread :=
        points.foldl (fun mx point => max mx (angularDistance center point.coord)) 0
      let spreadFrac := min (maxAngularSpread / (π / 2)) 1
      let farAltitude :=
        CLOSE_ALTITUDE + (FAR_ALTITUDE - CLOSE_ALTITUDE) * (0.35 + 0.65 * spreadFrac)
      ⟨center.lat, center.lng, min (max farAltitude CLOSE_ALTITUDE) FAR_ALTITUDE⟩

end

/-! ### Unfolding lemmas -/

theorem viewForPoints_nil :
    viewForPoints [] = ⟨DEFAULT_POINT_OF_VIEW.lat, DEFAULT_POINT_OF_VIEW.lng, FAR_ALTITUDE⟩ :=
  rfl

theorem viewForPoints_single (p : Point) :
    viewForPoints [p] = ⟨p.lat, p.lng, CLOSE_ALTITUDE + 0.1⟩ :=
  rfl

theorem viewForPoints_multi (p q : Point) (l : List Point) :
    viewForPoints (p :: q :: l) =
      (let sum := (p :: q :: l).foldl addCartesian ⟨0, 0, 0⟩
       let magnitude := Real.sqrt (sum.x * sum.x + sum.y * sum.y + sum.z * sum.z)
       let center :=
         if magnitude = 0 then DEFAULT_POINT_OF_VIEW
         else latLngFromCartesian ⟨sum.x / magnitude, sum.y / magnitude, sum.z / magnitude⟩
       let maxAngularSpread :=
         (p :: q :: l).foldl (fun mx point => max mx (angularDistance center point.coord)) 0
       let spreadFrac := min (maxAngularSpread / (π / 2)) 1
       let farAltitude :=
         CLOSE_ALTITUDE + (FAR_ALTITUDE - CLOSE_ALTITUDE) * (0.35 + 0.65 * spreadFrac)
       (⟨center.lat, center.lng, min (max farAltitude CLOSE_ALTITUDE) FAR_ALTITUDE⟩ : View)) :=
  rfl

/-! ### C2: the wide altitude is always within `[CLOSE_ALTITUDE, FAR_ALTITUDE]` -/

/-- C2: for every input list of points, the `farAltitude` returned by
`viewForPoints` lies in the closed interval
`[CLOSE_ALTITUDE, FAR_ALTITUDE] = [1.1, 4.6]`, in each of the three
branches (empty, singleton, two or more points). -/
theorem viewForPoints_farAltitude_mem (points : List Point) :
    CLOSE_ALTITUDE ≤ (viewForPoints points).farAltitude ∧
      (viewForPoints points).farAltitude ≤ FAR_ALTITUDE := by
  match points with
  | [] =>
    rw [viewForPoints_nil]
    constructor <;> norm_num [CLOSE_ALTITUDE, FAR_ALTITUDE]
  | [p] =>
    rw [viewForPoints_single]
    constructor <;> norm_num [CLOSE_ALTITUDE, FAR_ALTITUDE]
  | p :: q :: l =>
    rw [viewForPoints_multi]
    refine ⟨le_min (le_max_right _ _) ?_, min_le_right _ _⟩
    norm_num [CLOSE_ALTITUDE, FAR_ALTITUDE]

/-! ### C3: the altitude interpolation -/

/-- C3: for every `farAltitude` and `closeAltitude` with
`closeAltitude ≤ farAltitude`, the interpolated target altitude equals
`farAltitude` exactly at progress `0`, equals `closeAltitude` exactly at
progress `1`, and is monotonically non-increasing in the progress over all
real progress values. -/
theorem targetAltitude_spec (far close : ℝ) (h : close ≤ far) :
    targetAltitude far close 0 = far ∧
      targetAltitude far close 1 = close ∧
      ∀ p q : ℝ, p ≤ q → targetAltitude far close q ≤ targetAltitude far close p := by
  refine ⟨?_, ?_, ?_⟩
  · simp [targetAltitude]
  · norm_num [targetAltitude]
  · intro p q hpq
    have hclamp : min (max p 0) 1 ≤ min (max q 0) 1 :=
      min_le_min (max_le_max hpq le_rfl) le_rfl
    have hnn : 0 ≤ far - close := sub_nonneg.2 h
    simp only [targetAltitude]
    nlinarith [mul_le_mul_of_nonneg_left hclamp hnn]

/-- Witness for C3 at the concrete altitudes `4.6` and `1.1`. -/
theorem targetAltitude_spec_witness :
    targetAltitude 4.6 1.1 0 = 4.6 ∧
      targetAltitude 4.6 1.1 1 = 1.1 ∧
      targetAltitude 4.6 1.1 1 ≤ targetAltitude 4.6 1.1 0 :=
  ⟨(targetAltitude_spec 4.6 1.1 (by norm_num)).1,
    (targetAltitude_spec 4.6 1.1 (by norm_num)).2.1,
    (targetAltitude_spec 4.6 1.1 (by norm_num)).2.2 0 1 (by norm_num)⟩

/-! ### C10: `viewForPoints` never divides by zero -/

/-- C10: the framing computation is total: the checked variant, whose
normalization division fails on a zero denominator, returns
`some (viewForPoints points)` for every input list — the division is only
reached on the branch where the magnitude is nonzero. -/
theorem viewForPointsChecked_eq_some (points : List Point) :
    viewForPointsChecked points = some (viewForPoints points) := by
  match points with
  | [] => rfl
  | [p] => rfl
  | p :: q :: l =>
    by_cases hmag :
        Real.sqrt
          (((p :: q :: l).foldl addCartesian (⟨0, 0, 0⟩ : Vec3)).x *
              ((p :: q :: l).foldl addCartesian (⟨0, 0, 0⟩ : Vec3)).x +
            ((p :: q :: l).foldl addCartesian (⟨0, 0, 0⟩ : Vec3)).y *
              ((p :: q :: l).foldl addCartesian (⟨0, 0, 0⟩ : Vec3)).y +
            ((p :: q :: l).foldl addCartesian (⟨0, 0, 0⟩ : Vec3)).z *
              ((p :: q :: l).foldl addCartesian (⟨0, 0, 0⟩ : Vec3)).z) = 0
    · simp only [viewForPointsChecked, viewForPoints, if_pos hmag, Option.map_some']
    · simp only [viewForPointsChecked, viewForPoints, if_neg hmag, safeDiv,
        Option.bind_eq_bind, Option.some_bind, Option.map_some']

/-! ### Degree/radian and wrap helpers -/

theorem toDeg_toRad (x : ℝ) : toDeg (toRad x) = x := by
  rw [toRad, toDeg]
  field_simp

theorem toDeg_pi : toDeg π = 180 := by
  rw [toDeg]
  field_simp

theorem toDeg_zero : toDeg 0 = 0 := by
  simp [toDeg]

theorem jsRem_eq_self {a : ℝ} (h0 : 0 ≤ a) (h1 : a < 360) : jsRem a 360 = a := by
  have hfl : ⌊a / 360⌋ = 0 :=
    Int.floor_eq_zero_iff.2
      ⟨div_nonneg h0 (by norm_num), (div_lt_one (by norm_num)).2 h1⟩
  rw [jsRem, jsTrunc, if_pos (div_nonneg h0 (by norm_num)), hfl]
  push_cast
  ring

theorem jsRem_360_360 : jsRem 360 360 = 0 := by
  have : (360 : ℝ) / 360 = 1 := by norm_num
  rw [jsRem, jsTrunc, this, if_pos (by norm_num)]
  norm_num

theorem wrapLng_eq_self {l : ℝ} (h1 : -180 < l) (h2 : l < 180) : wrapLng l = l := by
  have hj : jsRem (l + 180) 360 = l + 180 := jsRem_eq_self (by linarith) (by linarith)
  simp only [wrapLng, hj]
  rw [if_neg (by linarith)]
  ring

theorem wrapLng_at_180 : wrapLng 180 = -180 := by
  have hj : jsRem ((180 : ℝ) + 180) 360 = 0 := by
    norm_num [jsRem_360_360]
  simp only [wrapLng, hj]
  norm_num

theorem wrapLng_mem {l : ℝ} (h1 : -180 < l) (h2 : l ≤ 180) :
    -180 ≤ wrapLng l ∧ wrapLng l < 180 := by
  rcases eq_or_lt_of_le h2 with he | hlt
  · rw [he, wrapLng_at_180]
    norm_num
  · rw [wrapLng_eq_self h1 hlt]
    exact ⟨h1.le, hlt⟩

/-! ### `atan2` helpers -/

theorem atan2_mem (y x : ℝ) : -π < atan2 y x ∧ atan2 y x ≤ π := by
  have hpi : 0 < π := pi_pos
  have hlt := arctan_lt_pi_div_two (y / x)
  have hgt := neg_pi_div_two_lt_arctan (y / x)
  rw [atan2]
  split_ifs with h1 h2 h3 h4 h5
  · exact ⟨by linarith, by linarith⟩
  · have hdiv : y / x ≤ 0 := div_nonpos_iff.2 (Or.inl ⟨h3, h2.le⟩)
    have harc : arctan (y / x) ≤ 0 := by
      have := arctan_strictMono.monotone hdiv
      rwa [arctan_zero] at this
    exact ⟨by linarith, by linarith⟩
  · have hy : y < 0 := lt_of_not_ge h3
    have hdiv : 0 < y / x := div_pos_of_neg_of_neg hy h2
    have harc : 0 < arctan (y / x) := by
      have := arctan_strictMono hdiv
      rwa [arctan_zero] at this
    exact ⟨by linarith, by linarith⟩
  · exact ⟨by linarith, by linarith⟩
  · exact ⟨by linarith, by linarith⟩
  · exact ⟨by linarith, by linarith⟩

theorem atan2_r_sin_cos {r θ : ℝ} (hr : 0 < r) (h1 : -π < θ) (h2 : θ ≤ π) :
    atan2 (r * sin θ) (r * cos θ) = θ := by
  have hrne : r ≠ 0 := ne_of_gt hr
  have hpi : 0 < π := pi_pos
  rcases lt_trichotomy θ (π / 2) with hlt | heq | hgt
  · rcases lt_trichotomy θ (-(π / 2)) with hlt2 | heq2 | hgt2
    · -- -π < θ < -π/2: the x < 0, y < 0 branch
      have hcos : cos θ < 0 := by
        have h := cos_neg_of_pi_div_two_lt_of_lt (x := -θ) (by linarith) (by linarith)
        rwa [Real.cos_neg] at h
      have hsin : sin θ < 0 := sin_neg_of_neg_of_neg_pi_lt (by linarith) h1
      have hx : r * cos θ < 0 := mul_neg_of_pos_of_neg hr hcos
      have hy : r * sin θ < 0 := mul_neg_of_pos_of_neg hr hsin
      rw [atan2, if_neg (by linarith), if_pos hx, if_neg (by linarith)]
      have hdiv : r * sin θ / (r * cos θ) = tan θ := by
        rw [mul_div_mul_left _ _ hrne, Real.tan_eq_sin_div_cos]
      rw [hdiv, ← Real.tan_periodic θ, arctan_tan (by linarith) (by linarith)]
      ring
    · -- θ = -π/2: x = 0, y = -r < 0
      rw [heq2]
      have hsin : sin (-(π / 2)) = -1 := by
        rw [Real.sin_neg, Real.sin_pi_div_two]
      have hcos : cos (-(π / 2)) = 0 := by
        rw [Real.cos_neg, Real.cos_pi_div_two]
      rw [hsin, hcos, mul_zero, atan2, if_neg (by norm_num), if_neg (by norm_num),
        if_neg (by nlinarith), if_pos (by nlinarith)]
    · -- -π/2 < θ < π/2: the x > 0 branch
      have hcos : 0 < cos θ := cos_pos_of_mem_Ioo ⟨hgt2, hlt⟩
      have hx : 0 < r * cos θ := mul_pos hr hcos
      rw [atan2, if_pos hx]
      have hdiv : r * sin θ / (r * cos θ) = tan θ := by
        rw [mul_div_mul_left _ _ hrne, Real.tan_eq_sin_div_cos]
      rw [hdiv, arctan_tan hgt2 hlt]
  · -- θ = π/2: x = 0, y = r > 0
    rw [heq, Real.sin_pi_div_two, Real.cos_pi_div_two, mul_zero, mul_one, atan2,
      if_neg (by norm_num), if_neg (by norm_num), if_pos hr]
  · -- π/2 < θ ≤ π: the x < 0, 0 ≤ y branch
    have hcos : cos θ < 0 := cos_neg_of_pi_div_two_lt_of_lt hgt (by linarith)
    have hsin : 0 ≤ sin θ := sin_nonneg_of_nonneg_of_le_pi (by linarith) h2
    have hx : r * cos θ < 0 := mul_neg_of_pos_of_neg hr hcos
    have hy : 0 ≤ r * sin θ := mul_nonneg hr.le hsin
    rw [atan2, if_neg (by linarith), if_pos hx, if_pos hy]
    have hdiv : r * sin θ / (r * cos θ) = tan θ := by
      rw [mul_div_mul_left _ _ hrne, Real.tan_eq_sin_div_cos]
    have hper : tan θ = tan (θ - π) := (Real.tan_periodic.sub_eq θ).symm
    rw [hdiv, hper, arctan_tan (by linarith) (by linarith)]
    ring

theorem atan2_zero_one : atan2 0 1 = 0 := by
  rw [atan2, if_pos one_pos]
  norm_num [arctan_zero]

theorem atan2_zero_neg_one : atan2 0 (-1) = π := by
  rw [atan2, if_neg (by norm_num), if_pos (by norm_num), if_pos le_rfl]
  norm_num [arctan_zero]

theorem latLngFromCartesian_neg_x : latLngFromCartesian ⟨-1, 0, 0⟩ = ⟨0, -180⟩ := by
  dsimp only [latLngFromCartesian]
  rw [show ((-1 : ℝ) * -1 + 0 * 0) = 1 by norm_num, Real.sqrt_one,
    atan2_zero_one, atan2_zero_neg_one, toDeg_zero, toDeg_pi, wrapLng_at_180]

/-! ### C5: the produced longitudes -/

/-- C5 (counterexample): the nonzero vector `(-1, 0, 0)` is mapped by
`latLngFromCartesian` to longitude `-180`, which does not lie in the
claimed half-open interval `(-180, 180]`. -/
theorem latLngFromCartesian_lng_eq_neg_180 :
    (latLngFromCartesian ⟨-1, 0, 0⟩).lng = -180 ∧
      ¬(-180 < (latLngFromCartesian ⟨-1, 0, 0⟩).lng ∧
          (latLngFromCartesian ⟨-1, 0, 0⟩).lng ≤ 180) := by
  rw [latLngFromCartesian_neg_x]
  norm_num

/-- C5 (amended): every longitude produced by `latLngFromCartesian` on a
nonzero input vector lies in the half-open interval `[-180, 180)`: at
least `-180` and strictly below `180`. -/
theorem latLngFromCartesian_lng_mem (v : Vec3) (hv : v ≠ ⟨0, 0, 0⟩) :
    -180 ≤ (latLngFromCartesian v).lng ∧ (latLngFromCartesian v).lng < 180 := by
  have hpi : 0 < π := pi_pos
  have hmem := atan2_mem v.y v.x
  have h1 : -180 < toDeg (atan2 v.y v.x) := by
    rw [toDeg, lt_div_iff₀ hpi]
    nlinarith [hmem.1]
  have h2 : toDeg (atan2 v.y v.x) ≤ 180 := by
    rw [toDeg, div_le_iff₀ hpi]
    nlinarith [hmem.2]
  dsimp only [latLngFromCartesian]
  exact wrapLng_mem h1 h2

/-- Witness for C5 at the nonzero vector `(1, 0, 0)`. -/
theorem latLngFromCartesian_lng_mem_witness :
    -180 ≤ (latLngFromCartesian ⟨1, 0, 0⟩).lng ∧ (latLngFromCartesian ⟨1, 0, 0⟩).lng < 180 :=
  latLngFromCartesian_lng_mem ⟨1, 0, 0⟩ (by
    intro h
    have hx : (1 : ℝ) = 0 := congrArg Vec3.x h
    norm_num at hx)

theorem toRad_zero : toRad 0 = 0 := by rw [toRad]; ring

theorem toRad_180 : toRad 180 = π := by rw [toRad]; ring

theorem cartesianFromLatLng_0_0 : cartesianFromLatLng ⟨0, 0⟩ = ⟨1, 0, 0⟩ := by
  dsimp only [cartesianFromLatLng]
  rw [toRad_zero, Real.cos_zero, Real.sin_zero]
  norm_num

theorem cartesianFromLatLng_0_180 : cartesianFromLatLng ⟨0, 180⟩ = ⟨-1, 0, 0⟩ := by
  dsimp only [cartesianFromLatLng]
  rw [toRad_180, toRad_zero, Real.cos_zero, Real.sin_zero, Real.cos_pi, Real.sin_pi]
  norm_num

/-! ### C4: the round trip through Cartesian coordinates -/

/-- C4 (counterexample): at longitude `180` the round trip is not the
identity: `(0, 180)` comes back as `(0, -180)` (the same geographic point,
but not the same longitude value). -/
theorem roundtrip_fails_at_lng_180 :
    latLngFromCartesian (cartesianFromLatLng ⟨0, 180⟩) = ⟨0, -180⟩ ∧
      latLngFromCartesian (cartesianFromLatLng ⟨0, 180⟩) ≠ ⟨0, 180⟩ := by
  have hpt := cartesianFromLatLng_0_180
  constructor
  · rw [hpt, latLngFromCartesian_neg_x]
  · rw [hpt, latLngFromCartesian_neg_x]
    intro h
    have := congrArg Coord.lng h
    norm_num at this

/-- C4 (amended): for every coordinate with latitude in `(-90, 90)` and
longitude in `[-180, 180)`, converting to a unit Cartesian vector and back
reproduces the latitude and longitude exactly; at longitude `180` (the
excluded endpoint) the round trip instead returns `-180`. -/
theorem latLngFromCartesian_cartesianFromLatLng (c : Coord)
    (h1 : -90 < c.lat) (h2 : c.lat < 90) (h3 : -180 ≤ c.lng) (h4 : c.lng < 180) :
    latLngFromCartesian (cartesianFromLatLng c) = c := by
  obtain ⟨clat, clng⟩ := c
  dsimp only at h1 h2 h3 h4
  have hpi : 0 < π := pi_pos
  dsimp only [latLngFromCartesian, cartesianFromLatLng]
  set φ := toRad clat with hφdef
  set θ := toRad clng with hθdef
  have hφ1 : -(π / 2) < φ := by rw [hφdef, toRad]; nlinarith
  have hφ2 : φ < π / 2 := by rw [hφdef, toRad]; nlinarith
  have hθ2 : θ < π := by rw [hθdef, toRad]; nlinarith
  have hcos : 0 < cos φ := cos_pos_of_mem_Ioo ⟨hφ1, hφ2⟩
  have hhyp :
      Real.sqrt (cos φ * cos θ * (cos φ * cos θ) + cos φ * sin θ * (cos φ * sin θ)) = cos φ := by
    have hp := sin_sq_add_cos_sq θ
    have hsq :
        cos φ * cos θ * (cos φ * cos θ) + cos φ * sin θ * (cos φ * sin θ) = cos φ ^ 2 := by
      linear_combination (cos φ) ^ 2 * hp
    rw [hsq, Real.sqrt_sq hcos.le]
  have hlat : atan2 (sin φ) (cos φ) = φ := by
    have h := atan2_r_sin_cos (r := 1) (θ := φ) one_pos (by linarith) (by linarith)
    rwa [one_mul, one_mul] at h
  rcases eq_or_lt_of_le h3 with hm | hm
  · -- longitude exactly -180
    have hθval : θ = -π := by
      rw [hθdef, ← hm, toRad]
      ring
    have hsinθ : sin θ = 0 := by rw [hθval, Real.sin_neg, Real.sin_pi, neg_zero]
    have hcosθ : cos θ = -1 := by rw [hθval, Real.cos_neg, Real.cos_pi]
    have hlng : atan2 (cos φ * sin θ) (cos φ * cos θ) = π := by
      rw [hsinθ, hcosθ, mul_zero, mul_neg_one, atan2, if_neg (by linarith),
        if_pos (by linarith), if_pos le_rfl]
      norm_num [arctan_zero]
    rw [hhyp, hlat, hlng, toDeg_pi, wrapLng_at_180, hφdef, toDeg_toRad, ← hm]
  · -- longitude in (-180, 180)
    have hθ1 : -π < θ := by rw [hθdef, toRad]; nlinarith
    have hlng : atan2 (cos φ * sin θ) (cos φ * cos θ) = θ := atan2_r_sin_cos hcos hθ1 hθ2.le
    rw [hhyp, hlat, hlng, hφdef, hθdef, toDeg_toRad, toDeg_toRad, wrapLng_eq_self hm h4]

/-- Witness for C4 at the in-range point `(10, 20)`. -/
theorem latLngFromCartesian_cartesianFromLatLng_witness :
    latLngFromCartesian (cartesianFromLatLng ⟨10, 20⟩) = ⟨10, 20⟩ :=
  latLngFromCartesian_cartesianFromLatLng ⟨10, 20⟩ (by norm_num) (by norm_num)
    (by norm_num) (by norm_num)

/-! ### The haversine term on valid latitudes -/

theorem toRad_mem_half_pi {l : ℝ} (h1 : -90 ≤ l) (h2 : l ≤ 90) :
    -(π / 2) ≤ toRad l ∧ toRad l ≤ π / 2 := by
  have hpi : 0 < π := pi_pos
  constructor
  · rw [toRad]; nlinarith
  · rw [toRad]; nlinarith

theorem haversineTerm_nonneg (a b : Coord)
    (ha1 : -90 ≤ a.lat) (ha2 : a.lat ≤ 90) (hb1 : -90 ≤ b.lat) (hb2 : b.lat ≤ 90) :
    0 ≤ haversineTerm a b := by
  have hca : 0 ≤ cos (toRad a.lat) :=
    cos_nonneg_of_mem_Icc ⟨(toRad_mem_half_pi ha1 ha2).1, (toRad_mem_half_pi ha1 ha2).2⟩
  have hcb : 0 ≤ cos (toRad b.lat) :=
    cos_nonneg_of_mem_Icc ⟨(toRad_mem_half_pi hb1 hb2).1, (toRad_mem_half_pi hb1 hb2).2⟩
  rw [haversineTerm]
  have h1 := sq_nonneg (sin ((toRad b.lat - toRad a.lat) / 2))
  have h2 := sq_nonneg (sin (toRad (b.lng - a.lng) / 2))
  exact add_nonneg h1 (mul_nonneg (mul_nonneg hca hcb) h2)

theorem haversineTerm_le_one (a b : Coord)
    (ha1 : -90 ≤ a.lat) (ha2 : a.lat ≤ 90) (hb1 : -90 ≤ b.lat) (hb2 : b.lat ≤ 90) :
    haversineTerm a b ≤ 1 := by
  have hca : 0 ≤ cos (toRad a.lat) :=
    cos_nonneg_of_mem_Icc ⟨(toRad_mem_half_pi ha1 ha2).1, (toRad_mem_half_pi ha1 ha2).2⟩
  have hcb : 0 ≤ cos (toRad b.lat) :=
    cos_nonneg_of_mem_Icc ⟨(toRad_mem_half_pi hb1 hb2).1, (toRad_mem_half_pi hb1 hb2).2⟩
  rw [haversineTerm]
  have e1 : sin ((toRad b.lat - toRad a.lat) / 2) ^ 2 =
      1 / 2 - cos (toRad b.lat - toRad a.lat) / 2 := by
    rw [sin_sq_eq_half_sub, show 2 * ((toRad b.lat - toRad a.lat) / 2) =
      toRad b.lat - toRad a.lat by ring]
  have e2 := Real.cos_sub (toRad b.lat) (toRad a.lat)
  have e3 := Real.cos_add (toRad b.lat) (toRad a.lat)
  have e4 : cos (toRad b.lat + toRad a.lat) ≤ 1 := cos_le_one _
  have e5 : sin (toRad (b.lng - a.lng) / 2) ^ 2 ≤ 1 := sin_sq_le_one _
  have e6 : 0 ≤ cos (toRad a.lat) * cos (toRad b.lat) := mul_nonneg hca hcb
  have e7 : cos (toRad a.lat) * cos (toRad b.lat) * sin (toRad (b.lng - a.lng) / 2) ^ 2 ≤
      cos (toRad a.lat) * cos (toRad b.lat) := mul_le_of_le_one_right e6 e5
  nlinarith [e1, e2, e3, e4, e7]

/-! ### C7: the `asin` argument stays in its domain -/

/-- C7: for valid latitudes the haversine term `h` is in `[0, 1]`, the
`min 1` clamp on `√h` is inert (so the `asin` argument is inside `[0, 1]`
and a domain error is unreachable), and the angular distance lies in
`[0, π]`. -/
theorem angularDistance_safe (a b : Coord)
    (ha1 : -90 ≤ a.lat) (ha2 : a.lat ≤ 90) (hb1 : -90 ≤ b.lat) (hb2 : b.lat ≤ 90) :
    0 ≤ haversineTerm a b ∧ haversineTerm a b ≤ 1 ∧
      min 1 (Real.sqrt (haversineTerm a b)) = Real.sqrt (haversineTerm a b) ∧
      0 ≤ angularDistance a b ∧ angularDistance a b ≤ π := by
  have h0 := haversineTerm_nonneg a b ha1 ha2 hb1 hb2
  have h1 := haversineTerm_le_one a b ha1 ha2 hb1 hb2
  have hmin : min 1 (Real.sqrt (haversineTerm a b)) = Real.sqrt (haversineTerm a b) :=
    min_eq_right (Real.sqrt_le_one.2 h1)
  refine ⟨h0, h1, hmin, ?_, ?_⟩
  · rw [angularDistance, hmin]
    have := Real.arcsin_nonneg.2 (Real.sqrt_nonneg (haversineTerm a b))
    linarith
  · rw [angularDistance]
    have := arcsin_le_pi_div_two (min 1 (Real.sqrt (haversineTerm a b)))
    linarith

/-- Witness for C7 at the two default points of the application. -/
theorem angularDistance_safe_witness :
    0 ≤ haversineTerm ⟨45.815, 15.9819⟩ ⟨37.7749, -122.4194⟩ ∧
      haversineTerm ⟨45.815, 15.9819⟩ ⟨37.7749, -122.4194⟩ ≤ 1 ∧
      min 1 (Real.sqrt (haversineTerm ⟨45.815, 15.9819⟩ ⟨37.7749, -122.4194⟩)) =
        Real.sqrt (haversineTerm ⟨45.815, 15.9819⟩ ⟨37.7749, -122.4194⟩) ∧
      0 ≤ angularDistance ⟨45.815, 15.9819⟩ ⟨37.7749, -122.4194⟩ ∧
      angularDistance ⟨45.815, 15.9819⟩ ⟨37.7749, -122.4194⟩ ≤ π :=
  angularDistance_safe ⟨45.815, 15.9819⟩ ⟨37.7749, -122.4194⟩ (by norm_num) (by norm_num)
    (by norm_num) (by norm_num)

/-! ### C9: the two haversine implementations agree -/

/-- C9: for valid latitudes, `haversineKm` equals `6371 * angularDistance`:
the haversine term is at most `1`, so the `min 1` clamp in
`angularDistance` is inert and the two independently written formulas
coincide up to the Earth-radius factor. -/
theorem haversineKm_eq_angularDistance (a b : Coord)
    (ha1 : -90 ≤ a.lat) (ha2 : a.lat ≤ 90) (hb1 : -90 ≤ b.lat) (hb2 : b.lat ≤ 90) :
    haversineKm a b = 6371 * angularDistance a b := by
  have h1 := haversineTerm_le_one a b ha1 ha2 hb1 hb2
  have hmin : min 1 (Real.sqrt (haversineTerm a b)) = Real.sqrt (haversineTerm a b) :=
    min_eq_right (Real.sqrt_le_one.2 h1)
  rw [angularDistance, hmin]
  simp only [haversineKm, haversineTerm]
  rw [show toRad (b.lat - a.lat) = toRad b.lat - toRad a.lat by
    rw [toRad, toRad, toRad]; ring]
  ring

/-- Witness for C9 at the two default points of the application. -/
theorem haversineKm_eq_angularDistance_witness :
    haversineKm ⟨45.815, 15.9819⟩ ⟨37.7749, -122.4194⟩ =
      6371 * angularDistance ⟨45.815, 15.9819⟩ ⟨37.7749, -122.4194⟩ :=
  haversineKm_eq_angularDistance ⟨45.815, 15.9819⟩ ⟨37.7749, -122.4194⟩ (by norm_num)
    (by norm_num) (by norm_num) (by norm_num)

/-! ### C6: permutation invariance of the framing -/

/-- C6: `viewForPoints` is permutation-invariant: permuting the input list
changes neither the center latitude, the center longitude, nor the wide
altitude. -/
theorem viewForPoints_perm (l₁ l₂ : List Point) (hp : l₁.Perm l₂) :
    viewForPoints l₁ = viewForPoints l₂ := by
  haveI : RightCommutative addCartesian := ⟨fun v p q => by
    simp only [addCartesian, Vec3.mk.injEq]
    refine ⟨by ring, by ring, by ring⟩⟩
  rcases l₁ with _ | ⟨p, _ | ⟨q, t⟩⟩
  · have h2 : l₂ = [] := hp.symm.eq_nil
    rw [h2]
  · have h2 : l₂ = [p] := List.perm_singleton.1 hp.symm
    rw [h2]
  · rcases l₂ with _ | ⟨p2, _ | ⟨q2, t2⟩⟩
    · exact absurd hp.length_eq (by simp)
    · exact absurd hp.length_eq (by simp [Nat.succ_ne_zero])
    · have hsum : (p :: q :: t).foldl addCartesian ⟨0, 0, 0⟩ =
          (p2 :: q2 :: t2).foldl addCartesian ⟨0, 0, 0⟩ := hp.foldl_eq (⟨0, 0, 0⟩ : Vec3)
      have hmax : ∀ center : Coord,
          (p :: q :: t).foldl
            (fun mx point => max mx (angularDistance center point.coord)) 0 =
          (p2 :: q2 :: t2).foldl
            (fun mx point => max mx (angularDistance center point.coord)) 0 := by
        intro center
        haveI : RightCommutative
            (fun mx (point : Point) => max mx (angularDistance center point.coord)) :=
          ⟨fun m a' b' => Max.right_comm m _ _⟩
        exact hp.foldl_eq 0
      simp only [viewForPoints_multi, hsum, hmax]

/-! ### C1: framing two exactly antipodal points -/

theorem toRad_20 : toRad 20 = π / 9 := by rw [toRad]; ring

theorem angularDistance_default_origin :
    angularDistance DEFAULT_POINT_OF_VIEW ⟨0, 0⟩ = π / 9 := by
  have hpi : 0 < π := pi_pos
  rw [angularDistance, haversineTerm]
  dsimp only [DEFAULT_POINT_OF_VIEW]
  rw [toRad_20, toRad_zero, show ((0 : ℝ) - 0) = 0 by norm_num, toRad_zero,
    show ((0 : ℝ) / 2) = 0 by norm_num, Real.sin_zero,
    show ((0 : ℝ) - π / 9) / 2 = -(π / 18) by ring, Real.sin_neg]
  rw [show (-sin (π / 18)) ^ 2 + cos (π / 9) * cos 0 * 0 ^ 2 = sin (π / 18) ^ 2 by
    rw [Real.cos_zero]; ring]
  have hnn : 0 ≤ sin (π / 18) :=
    sin_nonneg_of_nonneg_of_le_pi (by linarith) (by linarith)
  rw [Real.sqrt_sq hnn, min_eq_right (sin_le_one _),
    arcsin_sin (by linarith) (by linarith)]
  ring

theorem angularDistance_default_antipode :
    angularDistance DEFAULT_POINT_OF_VIEW ⟨0, 180⟩ = 8 * π / 9 := by
  have hpi : 0 < π := pi_pos
  rw [angularDistance, haversineTerm]
  dsimp only [DEFAULT_POINT_OF_VIEW]
  rw [toRad_20, toRad_zero, show ((180 : ℝ) - 0) = 180 by norm_num, toRad_180,
    show ((0 : ℝ) - π / 9) / 2 = -(π / 18) by ring, Real.sin_neg]
  have hdouble : cos (π / 9) = 1 - 2 * sin (π / 18) ^ 2 := by
    have h := sin_sq_eq_half_sub (π / 18)
    rw [show 2 * (π / 18) = π / 9 by ring] at h
    linarith
  have hsin2 : sin (π / 2) = 1 := Real.sin_pi_div_two
  have hterm : (-sin (π / 18)) ^ 2 + cos (π / 9) * cos 0 * sin (π / 2) ^ 2 =
      cos (π / 18) ^ 2 := by
    rw [Real.cos_zero, hsin2, hdouble]
    have hpyth := sin_sq_add_cos_sq (π / 18)
    linear_combination -hpyth
  rw [hterm]
  have hnn : 0 ≤ cos (π / 18) :=
    cos_nonneg_of_mem_Icc ⟨by linarith, by linarith⟩
  rw [Real.sqrt_sq hnn, min_eq_right (cos_le_one _), ← Real.sin_pi_div_two_sub,
    show π / 2 - π / 18 = 4 * π / 9 by ring,
    arcsin_sin (by linarith) (by linarith)]
  ring

/-- C1: for the two-element antipodal input `[(0,0), (0,180)]` the
unit-vector sum is exactly zero, so `viewForPoints` takes the
default-center fallback `(20, 0)`; the angular spread from that center to
`(0,180)` exceeds `π/2`, so the spread ratio clamps to `1` and the
returned wide altitude equals `FAR_ALTITUDE`. -/
theorem viewForPoints_antipodal :
    viewForPoints [⟨0, 0, "a"⟩, ⟨0, 180, "b"⟩] =
      ⟨DEFAULT_POINT_OF_VIEW.lat, DEFAULT_POINT_OF_VIEW.lng, FAR_ALTITUDE⟩ ∧
      ([(⟨0, 0, "a"⟩ : Point), ⟨0, 180, "b"⟩].foldl addCartesian ⟨0, 0, 0⟩ = ⟨0, 0, 0⟩) ∧
      π / 2 < angularDistance DEFAULT_POINT_OF_VIEW ⟨0, 180⟩ := by
  have hpi : 0 < π := pi_pos
  have hsum : ([(⟨0, 0, "a"⟩ : Point), ⟨0, 180, "b"⟩].foldl addCartesian ⟨0, 0, 0⟩ =
      (⟨0, 0, 0⟩ : Vec3)) := by
    simp only [List.foldl_cons, List.foldl_nil]
    dsimp only [addCartesian, Point.coord]
    rw [show (Coord.mk 0 0) = (⟨0, 0⟩ : Coord) from rfl, cartesianFromLatLng_0_0,
      cartesianFromLatLng_0_180]
    norm_num
  refine ⟨?_, hsum, ?_⟩
  · rw [viewForPoints_multi]
    simp only [hsum]
    rw [show ((⟨0, 0, 0⟩ : Vec3).x * (⟨0, 0, 0⟩ : Vec3).x + (⟨0, 0, 0⟩ : Vec3).y *
      (⟨0, 0, 0⟩ : Vec3).y + (⟨0, 0, 0⟩ : Vec3).z * (⟨0, 0, 0⟩ : Vec3).z) = 0 by norm_num,
      Real.sqrt_zero, if_pos rfl]
    simp only [List.foldl_cons, List.foldl_nil]
    dsimp only [Point.coord]
    rw [show (Coord.mk 0 0) = (⟨0, 0⟩ : Coord) from rfl,
      show (Coord.mk 0 180) = (⟨0, 180⟩ : Coord) from rfl,
      angularDistance_default_origin, angularDistance_default_antipode]
    rw [max_eq_right (le_of_lt (by linarith : (0 : ℝ) < π / 9)),
      max_eq_right (by linarith : π / 9 ≤ 8 * π / 9)]
    have hfrac : 8 * π / 9 / (π / 2) = 16 / 9 := by
      field_simp
      ring
    rw [hfrac, min_eq_right (by norm_num : (1 : ℝ) ≤ 16 / 9)]
    norm_num [CLOSE_ALTITUDE, FAR_ALTITUDE]
  · rw [angularDistance_default_antipode]
    nlinarith

/-- Witness for C6: swapping the two default points leaves the framing
unchanged. -/
theorem viewForPoints_perm_witness :
    viewForPoints [⟨45.815, 15.9819, "me"⟩, ⟨37.7749, -122.4194, "viewer"⟩] =
      viewForPoints [⟨37.7749, -122.4194, "viewer"⟩, ⟨45.815, 15.9819, "me"⟩] :=
  viewForPoints_perm _ _
    (List.Perm.swap (⟨37.7749, -122.4194, "viewer"⟩ : Point)
      (⟨45.815, 15.9819, "me"⟩ : Point) [])

/-! ### C8: the distance between the two default points

The haversine distance between `(45.815, 15.9819)` and
`(37.7749, -122.4194)` is about `9833.7` km, so it does lie outside the
band `[9850, 9950]` claimed by the specification.  The rigorous bounds
below reduce the haversine term to three small angles
(`8.0401·π/360`, `6.4101·π/180`, `41.5987·π/720`) by exact product and
double-angle identities and then evaluate each sine with the fourth-order
Taylor bound. -/

theorem sin_le_poly {x lo hi : ℝ} (hlo : lo ≤ x) (hhi : x ≤ hi) (h0 : 0 ≤ lo) (h1 : hi ≤ 1) :
    sin x ≤ hi - lo ^ 3 / 6 + hi ^ 4 * (5 / 96) := by
  have hx0 : 0 ≤ x := le_trans h0 hlo
  have habs : |x| ≤ 1 := abs_le.2 ⟨by linarith, by linarith⟩
  have hb := Real.sin_bound habs
  have h2 := (abs_sub_le_iff.1 hb).1
  rw [abs_of_nonneg hx0] at h2
  have hx3 : lo ^ 3 ≤ x ^ 3 := pow_le_pow_left₀ h0 hlo 3
  have hx4 : x ^ 4 ≤ hi ^ 4 := pow_le_pow_left₀ hx0 hhi 4
  nlinarith

theorem poly_le_sin {x lo hi : ℝ} (hlo : lo ≤ x) (hhi : x ≤ hi) (h0 : 0 ≤ lo) (h1 : hi ≤ 1) :
    lo - hi ^ 3 / 6 - hi ^ 4 * (5 / 96) ≤ sin x := by
  have hx0 : 0 ≤ x := le_trans h0 hlo
  have habs : |x| ≤ 1 := abs_le.2 ⟨by linarith, by linarith⟩
  have hb := Real.sin_bound habs
  have h2 := (abs_sub_le_iff.1 hb).2
  rw [abs_of_nonneg hx0] at h2
  have hx3 : x ^ 3 ≤ hi ^ 3 := pow_le_pow_left₀ hx0 hhi 3
  have hx4 : x ^ 4 ≤ hi ^ 4 := pow_le_pow_left₀ hx0 hhi 4
  nlinarith

set_option maxHeartbeats 2000000 in
theorem haversineKm_default_bounds :
    9780 ≤ haversineKm ⟨45.815, 15.9819⟩ ⟨37.7749, -122.4194⟩ ∧
      haversineKm ⟨45.815, 15.9819⟩ ⟨37.7749, -122.4194⟩ ≤ 9845 := by
  have hπl : (3.141592 : ℝ) < π := pi_gt_d6
  have hπu : π < 3.141593 := pi_lt_d6
  -- the three small angles
  set a : ℝ := 8.0401 * π / 360 with ha_def
  set g : ℝ := 6.4101 * π / 180 with hg_def
  set u : ℝ := 41.5987 * π / 720 with hu_def
  have ha_lb : 8.0401 * 3.141592 / 360 ≤ a := by rw [ha_def]; linarith
  have ha_ub : a ≤ 8.0401 * 3.141593 / 360 := by rw [ha_def]; linarith
  have hg_lb : 6.4101 * 3.141592 / 180 ≤ g := by rw [hg_def]; linarith
  have hg_ub : g ≤ 6.4101 * 3.141593 / 180 := by rw [hg_def]; linarith
  have hu_lb : 41.5987 * 3.141592 / 720 ≤ u := by rw [hu_def]; linarith
  have hu_ub : u ≤ 41.5987 * 3.141593 / 720 := by rw [hu_def]; linarith
  -- Taylor evaluation of the three sines
  have hsa_ub : sin a ≤ 0.070107 :=
    le_trans (sin_le_poly ha_lb ha_ub (by norm_num) (by norm_num)) (by norm_num)
  have hsa_lb : (0.070104 : ℝ) ≤ sin a :=
    le_trans (by norm_num) (poly_le_sin ha_lb ha_ub (by norm_num) (by norm_num))
  have hsg_ub : sin g ≤ 0.111653 :=
    le_trans (sin_le_poly hg_lb hg_ub (by norm_num) (by norm_num)) (by norm_num)
  have hsg_lb : (0.111635 : ℝ) ≤ sin g :=
    le_trans (by norm_num) (poly_le_sin hg_lb hg_ub (by norm_num) (by norm_num))
  have hsu_ub : sin u ≤ 0.180569 :=
    le_trans (sin_le_poly hu_lb hu_ub (by norm_num) (by norm_num)) (by norm_num)
  have hsu_lb : (0.180455 : ℝ) ≤ sin u :=
    le_trans (by norm_num) (poly_le_sin hu_lb hu_ub (by norm_num) (by norm_num))
  -- the haversine term in closed form over the three sines
  have hE_eq : sin (toRad (37.7749 - 45.815) / 2) ^ 2 +
      cos (toRad 45.815) * cos (toRad 37.7749) * sin (toRad (-122.4194 - 15.9819) / 2) ^ 2 =
      sin a ^ 2 + (1 - 2 * sin a ^ 2 + sin g) / 2 * (1 - 2 * sin u ^ 2) ^ 2 := by
    have e1 : toRad (37.7749 - 45.815) / 2 = -a := by rw [ha_def, toRad]; ring
    have e2 : toRad (-122.4194 - 15.9819) / 2 = -(π / 2 - 2 * u) := by
      rw [hu_def, toRad]; ring
    have e3 : toRad 45.815 - toRad 37.7749 = 2 * a := by rw [ha_def, toRad, toRad]; ring
    have e4 : toRad 45.815 + toRad 37.7749 = π / 2 - g := by rw [hg_def, toRad, toRad]; ring
    have hdbl_a : cos (2 * a) = 1 - 2 * sin a ^ 2 := by
      have h := sin_sq_eq_half_sub a
      linarith
    have hdbl_u : cos (2 * u) = 1 - 2 * sin u ^ 2 := by
      have h := sin_sq_eq_half_sub u
      linarith
    have hcc : cos (toRad 45.815) * cos (toRad 37.7749) = (cos (2 * a) + sin g) / 2 := by
      have hsub := Real.cos_sub (toRad 45.815) (toRad 37.7749)
      have hadd := Real.cos_add (toRad 45.815) (toRad 37.7749)
      rw [e3] at hsub
      rw [e4, Real.cos_pi_div_two_sub] at hadd
      linarith
    have hsin_e : sin (toRad (-122.4194 - 15.9819) / 2) ^ 2 = (1 - 2 * sin u ^ 2) ^ 2 := by
      rw [e2, Real.sin_neg, Real.sin_pi_div_two_sub, hdbl_u]
      ring
    rw [e1, Real.sin_neg, hcc, hdbl_a, hsin_e]
    ring
  have hd_eq : haversineKm ⟨45.815, 15.9819⟩ ⟨37.7749, -122.4194⟩ =
      2 * 6371 * arcsin (Real.sqrt
        (sin a ^ 2 + (1 - 2 * sin a ^ 2 + sin g) / 2 * (1 - 2 * sin u ^ 2) ^ 2)) := by
    simp only [haversineKm]
    rw [hE_eq]
  set E : ℝ := sin a ^ 2 + (1 - 2 * sin a ^ 2 + sin g) / 2 * (1 - 2 * sin u ^ 2) ^ 2
    with hE_def
  -- interval bounds on the haversine term
  have hsa2_ub : sin a ^ 2 ≤ 0.070107 ^ 2 := by nlinarith
  have hsa2_lb : (0.070104 : ℝ) ^ 2 ≤ sin a ^ 2 := by nlinarith
  have hsu2_ub : sin u ^ 2 ≤ 0.180569 ^ 2 := by nlinarith
  have hsu2_lb : (0.180455 : ℝ) ^ 2 ≤ sin u ^ 2 := by nlinarith
  have hP_lb : (0.550902 : ℝ) ≤ (1 - 2 * sin a ^ 2 + sin g) / 2 := by linarith
  have hP_ub : (1 - 2 * sin a ^ 2 + sin g) / 2 ≤ 0.550912 := by linarith
  have hQ_lb : (0.934789 : ℝ) ≤ 1 - 2 * sin u ^ 2 := by linarith
  have hQ_ub : 1 - 2 * sin u ^ 2 ≤ 0.934872 := by linarith
  have hE2_lb : (0.873830 : ℝ) ≤ (1 - 2 * sin u ^ 2) ^ 2 := by nlinarith
  have hE2_ub : (1 - 2 * sin u ^ 2) ^ 2 ≤ 0.873986 := by nlinarith
  have hPE_ub : (1 - 2 * sin a ^ 2 + sin g) / 2 * (1 - 2 * sin u ^ 2) ^ 2 ≤
      0.550912 * 0.873986 :=
    mul_le_mul hP_ub hE2_ub (sq_nonneg _) (by norm_num)
  have hPE_lb : (0.550902 : ℝ) * 0.873830 ≤
      (1 - 2 * sin a ^ 2 + sin g) / 2 * (1 - 2 * sin u ^ 2) ^ 2 :=
    mul_le_mul hP_lb hE2_lb (by norm_num) (by linarith)
  have hE_lb : (0.4862 : ℝ) ≤ E := by rw [hE_def]; nlinarith
  have hE_ub : E ≤ (0.4865 : ℝ) := by rw [hE_def]; nlinarith
  have hE_nonneg : 0 ≤ E := le_trans (by norm_num) hE_lb
  constructor
  · -- lower bound 9780
    rw [hd_eq]
    have hw_pos : 0 < π / 2 - 2 * ((9780 : ℝ) / 12742) := by linarith
    have hw_le_one : π / 2 - 2 * ((9780 : ℝ) / 12742) ≤ 1 := by linarith
    have hcube := Real.sin_gt_sub_cube hw_pos hw_le_one
    have hw_lb : (3.141592 / 2 - 9780 / 6371 : ℝ) ≤ π / 2 - 2 * ((9780 : ℝ) / 12742) := by
      linarith
    have hw_ub : π / 2 - 2 * ((9780 : ℝ) / 12742) ≤ (3.141593 / 2 - 9780 / 6371 : ℝ) := by
      linarith
    have hw3 : (π / 2 - 2 * ((9780 : ℝ) / 12742)) ^ 3 ≤ (3.141593 / 2 - 9780 / 6371 : ℝ) ^ 3 :=
      pow_le_pow_left₀ (le_of_lt hw_pos) hw_ub 3
    have hsq : sin ((9780 : ℝ) / 12742) ^ 2 =
        1 / 2 - sin (π / 2 - 2 * ((9780 : ℝ) / 12742)) / 2 := by
      rw [sin_sq_eq_half_sub, (Real.sin_pi_div_two_sub (2 * ((9780 : ℝ) / 12742))).symm]
    have hEθ : sin ((9780 : ℝ) / 12742) ^ 2 ≤ E := by
      rw [hsq]
      nlinarith [hcube, hw_lb, hw3, hE_lb]
    have hsinθ0_nonneg : 0 ≤ sin ((9780 : ℝ) / 12742) :=
      sin_nonneg_of_nonneg_of_le_pi (by norm_num) (by linarith)
    have hsqrt : sin ((9780 : ℝ) / 12742) ≤ Real.sqrt E := by
      have h := Real.sqrt_le_sqrt hEθ
      rwa [Real.sqrt_sq hsinθ0_nonneg] at h
    have harc : (9780 : ℝ) / 12742 ≤ arcsin (Real.sqrt E) := by
      have h := Real.monotone_arcsin hsqrt
      rwa [arcsin_sin (by linarith) (by linarith)] at h
    linarith
  · -- upper bound 9845
    rw [hd_eq]
    have hw_pos : 0 < π / 2 - 2 * ((9845 : ℝ) / 12742) := by linarith
    have hsinw := Real.sin_lt hw_pos
    have hw_ub : π / 2 - 2 * ((9845 : ℝ) / 12742) ≤ (3.141593 / 2 - 9845 / 6371 : ℝ) := by
      linarith
    have hsq : sin ((9845 : ℝ) / 12742) ^ 2 =
        1 / 2 - sin (π / 2 - 2 * ((9845 : ℝ) / 12742)) / 2 := by
      rw [sin_sq_eq_half_sub, (Real.sin_pi_div_two_sub (2 * ((9845 : ℝ) / 12742))).symm]
    have hEθ : E ≤ sin ((9845 : ℝ) / 12742) ^ 2 := by
      rw [hsq]
      nlinarith [hsinw, hw_ub, hE_ub]
    have hsinθ1_nonneg : 0 ≤ sin ((9845 : ℝ) / 12742) :=
      sin_nonneg_of_nonneg_of_le_pi (by norm_num) (by linarith)
    have hsqrt : Real.sqrt E ≤ sin ((9845 : ℝ) / 12742) := by
      have h := Real.sqrt_le_sqrt hEθ
      rwa [Real.sqrt_sq hsinθ1_nonneg] at h
    have harc : arcsin (Real.sqrt E) ≤ (9845 : ℝ) / 12742 := by
      have h := Real.monotone_arcsin hsqrt
      rwa [arcsin_sin (by linarith) (by linarith)] at h
    linarith

/-- C8 (counterexample): the haversine distance between the application's
two default points is at most `9845` km, so it does not lie in the claimed
band `[9850, 9950]` km around `9900`. -/
theorem haversineKm_default_not_in_band :
    ¬(9850 ≤ haversineKm ⟨45.815, 15.9819⟩ ⟨37.7749, -122.4194⟩ ∧
        haversineKm ⟨45.815, 15.9819⟩ ⟨37.7749, -122.4194⟩ ≤ 9950) := by
  intro h
  have hb := haversineKm_default_bounds
  linarith [h.1, hb.2]

/-- C8 (amended): the haversine distance between the application's two
default points is approximately `9834` km: it lies in `[9780, 9845]`,
strictly below the specification's lower bound of `9850` km. -/
theorem haversineKm_default_approx :
    9780 ≤ haversineKm ⟨45.815, 15.9819⟩ ⟨37.7749, -122.4194⟩ ∧
      haversineKm ⟨45.815, 15.9819⟩ ⟨37.7749, -122.4194⟩ ≤ 9845 :=
  haversineKm_default_bounds

end Globe
